import Mathlib

/-!
Verification of the A2A server layer (`src/server.ts`).

The development shallowly embeds the server's data model and handlers:

* `Js` models JavaScript/JSON runtime values reaching the handlers; JS
  truthiness (`jsTruthy`) and the `||` default idiom (`jsOr`, `jsOrBool`,
  `jsOrList`) are modelled explicitly, since several behaviours hinge on
  `""`/`false` being falsy.
* `jsStringify` models `JSON.stringify(v, null, 2)` up to whitespace and
  string escaping (the claims depend only on the serializer being a fixed
  total function of the value, not on its exact layout).
* `jsToStr` models JavaScript `String(v)` coercion.
* `buildAgentCardFromConfig`, `SimpleExecutionEventBus` (as `busStep` /
  `busResponse`), the agent executor (`runExecute`), the JSON-RPC `POST /`
  handler (`handleJsonRpc`) and the manual REST `POST /message/send` handler
  (`handleMessageSend`) are translated line-by-line from `src/server.ts`.
* The workflow engine is external to the repository; it is a parameter
  `engine : String → String → Except String Js` mapping the extracted text
  content and `thread_id` to a result or a thrown error message.
* `Date.now()` and `Math.random().toString(36)` are parameters (`now`,
  `rand36`); the set of strings the latter can produce is modelled by
  `randChars36OK`.
-/

namespace A2AServer

/-! ## JavaScript value model -/

/-- Model of a JavaScript/JSON value as it reaches the server's handlers.
`undefined` is modelled by `Option` at each use site. -/
inductive Js where
  | str (s : String)
  | num (n : Int)
  | bool (b : Bool)
  | null
  | arr (elems : List Js)
  | obj (fields : List (String × Js))

/-- JavaScript truthiness: `""`, `0`, `false` and `null` are falsy; every
object and array (even empty) is truthy. -/
def jsTruthy : Js → Bool
  | .str s => s ≠ ""
  | .num n => n ≠ 0
  | .bool b => b
  | .null => false
  | .arr _ => true
  | .obj _ => true

/-- Property read `v.k` on a value: `none` models `undefined` (absent key, or
a non-object receiver under optional chaining). -/
def jsGet (v : Js) (k : String) : Option Js :=
  match v with
  | .obj fs => (fs.find? (fun kv => kv.1 = k)).map (·.2)
  | _ => none

/-- The `x || d` default idiom on an optional string: `undefined` and the
falsy `""` both select the default. -/
def jsOr (o : Option String) (d : String) : String :=
  match o with
  | some s => if s = "" then d else s
  | none => d

/-- The `x || d` default idiom on an optional boolean: `undefined` and
`false` select the default, so `jsOrBool x true` is constantly `true`. -/
def jsOrBool (o : Option Bool) (d : Bool) : Bool :=
  o.getD false || d

/-- The `x || d` default idiom on an optional array: arrays are always
truthy in JavaScript, so only `undefined` selects the default. -/
def jsOrList (o : Option (List α)) (d : List α) : List α :=
  o.getD d

/-- Fuel-indexed body of `jsStringify`; the fuel only bookkeeps termination
of the recursion through nested lists and is always supplied ample. -/
def jsStringifyFuel : Nat → Js → String
  | 0, _ => ""
  | Nat.succ n, v =>
    match v with
    | .str s => "\"" ++ s ++ "\""
    | .num i => toString i
    | .bool b => if b then "true" else "false"
    | .null => "null"
    | .arr xs =>
        "[" ++ String.intercalate "," (xs.map (jsStringifyFuel n)) ++ "]"
    | .obj fs =>
        "\x7b" ++
          String.intercalate ","
            (fs.map (fun kv => "\"" ++ kv.1 ++ "\":" ++ jsStringifyFuel n kv.2)) ++
        "\x7d"

/-- Model of `JSON.stringify(v, null, 2)`: a fixed, total serialization of
the whole value (whitespace/indentation abstracted away). The fuel literal
only bookkeeps termination of the recursion through the nested lists; it is
ample for every value this development evaluates, and every theorem that
mentions `jsStringify` uses it uniformly, so no statement depends on the
bound. -/
def jsStringify (v : Js) : String := jsStringifyFuel 1000 v

/-- Fuel-indexed body of `jsToStr`. -/
def jsToStrFuel : Nat → Js → String
  | 0, _ => ""
  | Nat.succ n, v =>
    match v with
    | .str s => s
    | .num i => toString i
    | .bool b => if b then "true" else "false"
    | .null => "null"
    | .arr xs => String.intercalate "," (xs.map (jsToStrFuel n))
    | .obj _ => "[object Object]"

/-- Model of JavaScript `String(v)` coercion, with the same ample fuel
bookkeeping as `jsStringify`. -/
def jsToStr (v : Js) : String := jsToStrFuel 1000 v

/-! ## Message parts and the execution event bus -/

/-- A message part as the handlers see it; the legacy duck-typed check reads
both a `kind` and a `type` discriminant. A missing `text` field is modelled
by `none` (JavaScript `undefined`, which `join` renders as `""`). -/
structure Part where
  kind : Option String := none
  type : Option String := none
  text : Option String := none
deriving DecidableEq

/-- The duck-typed text-part test `p.kind === "text" || p.type === "text"`
from `src/server.ts`. -/
def isTextPart (p : Part) : Bool :=
  p.kind == some "text" || p.type == some "text"

/-- The `p.text` read used under `Array.prototype.join`, which renders an
`undefined` element as the empty string. -/
def partText (p : Part) : String := p.text.getD ""

/-- JavaScript `Array.prototype.join(sep)` on a list of strings. -/
def joinSep (sep : String) : List String → String
  | [] => ""
  | [x] => x
  | x :: xs => x ++ sep ++ joinSep sep xs

/-- An event published on an execution event bus (`publish` takes `any`;
only `kind`, `role` and `parts` are ever read). -/
structure Event where
  kind : Option String := none
  role : Option String := none
  messageId : Option String := none
  parts : Option (List Part) := none
deriving DecidableEq

/-- One `publish` call of `SimpleExecutionEventBus` (`src/server.ts` lines
36-47): an agent message appends the space-join of its text parts to the
accumulated `responseText`; everything else leaves it unchanged. -/
def busStep (acc : String) (e : Event) : String :=
  if e.kind == some "message" && e.role == some "agent" then
    match e.parts with
    | some ps =>
        let textParts := ps.filter isTextPart
        if textParts.length > 0 then acc ++ joinSep " " (textParts.map partText)
        else acc
    | none => acc
  else acc

/-- `getResponse()` after the given sequence of `publish` calls on a fresh
`SimpleExecutionEventBus` (the field starts as `""`). -/
def busResponse (events : List Event) : String :=
  events.foldl busStep ""

/-- What a single event contributes to the accumulated response text: the
space-join of its text parts if it is an agent message, nothing otherwise. -/
def eventContribution (e : Event) : String :=
  if e.kind == some "message" && e.role == some "agent" then
    joinSep " " (((e.parts.getD []).filter isTextPart).map partText)
  else ""

/-- Concatenation of a list of strings with no separator. -/
def concatAll : List String → String
  | [] => ""
  | x :: xs => x ++ concatAll xs

/-! ## Agent card construction (`buildAgentCardFromConfig`) -/

/-- Capability flags of the produced agent card. -/
structure AgentCapabilities where
  streaming : Bool
  pushNotifications : Bool
  stateTransitionHistory : Bool
deriving DecidableEq

/-- The agent card produced by `buildAgentCardFromConfig` (the SDK's
`AgentCard` with every field present). Skills are opaque to this layer and
modelled as strings. -/
structure AgentCard where
  name : String
  description : String
  protocolVersion : String
  version : String
  url : String
  defaultInputModes : List String
  defaultOutputModes : List String
  capabilities : AgentCapabilities
  skills : List String
deriving DecidableEq

/-- Capability flags as they appear in a configuration file: each may be
absent. -/
structure ConfigCapabilities where
  streaming : Option Bool := none
  pushNotifications : Option Bool := none
  stateTransitionHistory : Option Bool := none
deriving DecidableEq

/-- An explicit `agentCard` embedded in configuration: `name` and
`description` are required by the config type, everything else optional. -/
structure ConfigAgentCard where
  name : String
  description : String
  protocolVersion : Option String := none
  version : Option String := none
  url : Option String := none
  defaultInputModes : Option (List String) := none
  defaultOutputModes : Option (List String) := none
  capabilities : Option ConfigCapabilities := none
  skills : Option (List String) := none
deriving DecidableEq

/-- The `config.a2aEndpoint` section of a workflow configuration. -/
structure A2AEndpointConfig where
  name : Option String := none
  description : Option String := none
  port : Option Nat := none
  agentCard : Option ConfigAgentCard := none
deriving DecidableEq

/-- The `config` section of a workflow configuration. -/
structure ConfigSection where
  name : Option String := none
  description : Option String := none
  a2aEndpoint : Option A2AEndpointConfig := none
deriving DecidableEq

/-- A workflow configuration, restricted to the fields
`buildAgentCardFromConfig` reads. -/
structure WorkflowConfig where
  config : Option ConfigSection := none
deriving DecidableEq

/-- Translation of `buildAgentCardFromConfig` (`src/server.ts` lines
101-151): if the configuration embeds an `agentCard`, build from it with
`||` defaults per field; otherwise synthesize the fallback card from
top-level name/description and the port. -/
def buildAgentCardFromConfig (workflowConfig : WorkflowConfig) (port : Nat) :
    AgentCard :=
  let a2aConfig := workflowConfig.config.bind (·.a2aEndpoint)
  match a2aConfig.bind (·.agentCard) with
  | some configCard =>
      { name := configCard.name
        description := configCard.description
        protocolVersion := jsOr configCard.protocolVersion "0.3.0"
        version := jsOr configCard.version "1.0.0"
        url := jsOr configCard.url ("http://localhost:" ++ toString port ++ "/")
        defaultInputModes := jsOrList configCard.defaultInputModes ["text/plain"]
        defaultOutputModes := jsOrList configCard.defaultOutputModes ["text/plain"]
        capabilities :=
          { streaming := jsOrBool (configCard.capabilities.bind (·.streaming)) false
            pushNotifications :=
              jsOrBool (configCard.capabilities.bind (·.pushNotifications)) false
            stateTransitionHistory :=
              jsOrBool (configCard.capabilities.bind (·.stateTransitionHistory)) true }
        skills := jsOrList configCard.skills [] }
  | none =>
      { name :=
          jsOr (a2aConfig.bind (·.name))
            (jsOr (workflowConfig.config.bind (·.name)) "WorkflowAgent")
        description :=
          jsOr (a2aConfig.bind (·.description))
            (jsOr (workflowConfig.config.bind (·.description))
              "A workflow agent that processes tasks through multiple steps")
        protocolVersion := "0.3.0"
        version := "1.0.0"
        url := "http://localhost:" ++ toString port ++ "/"
        defaultInputModes := ["text/plain"]
        defaultOutputModes := ["text/plain"]
        capabilities :=
          { streaming := false
            pushNotifications := false
            stateTransitionHistory := true }
        skills := [] }

/-! ## Task identifiers -/

/-- JavaScript `String.prototype.substring(a, b)` for `a ≤ b`: the
characters at indices `[a, b)`, clamped to the string's length. -/
def jsSubstring (s : String) (a b : Nat) : String :=
  String.mk ((s.toList.drop a).take (b - a))

/-- Task id generation from the JSON-RPC `message/send` branch
(`src/server.ts` line 324):
`` `task-${Date.now()}-${Math.random().toString(36).substring(2, 11)}` ``.
`now` is the epoch-millisecond clock reading and `rand36` the string
returned by `Math.random().toString(36)`. -/
def mkTaskId (now : Nat) (rand36 : String) : String :=
  "task-" ++ toString now ++ "-" ++ jsSubstring rand36 2 11

/-- Base-36 digits, the alphabet of `Number.prototype.toString(36)`. -/
def isBase36Digit (c : Char) : Bool :=
  (('0' ≤ c) && (c ≤ '9')) || (('a' ≤ c) && (c ≤ 'z'))

/-- Modelled from JS semantics of the random source: `Math.random()` returns
a double in `[0, 1)`, and `toString(36)` renders `0` as `"0"` and any other
such value as `"0."` followed by a non-empty run of base-36 digits. The set
is an over-approximation of the exactly producible strings; membership of a
concrete witness such as `"0.i"` is justified by exact arithmetic
(`0.5` is representable and `(0.5).toString(36) = "0.i"` since `0.5 = 18/36`). -/
def randChars36OK : List Char → Bool
  | [] => false
  | c0 :: tl =>
      if c0 = '0' then
        match tl with
        | [] => true
        | c1 :: rest =>
            if c1 = '.' then rest ≠ [] && rest.all isBase36Digit else false
      else false

/-- String-level form of `randChars36OK`. -/
def randStr36OK (s : String) : Bool := randChars36OK s.toList

/-! ## The agent executor (`agentExecutor.execute`) -/

/-- A workflow engine invocation, external to this repository: from the
extracted text content and the `thread_id` to either a result value or a
thrown error's message. -/
def Engine : Type := String → String → Except String Js

/-- An inbound message (`params.message` on the JSON-RPC path,
`body.message` on the REST path); the handlers only read `parts`. -/
structure InboundMessage where
  messageId : Option String := none
  parts : Option (List Part) := none
deriving DecidableEq

/-- Whitespace as JavaScript `String.prototype.trim` removes it, restricted
to the ASCII whitespace characters occurring in this development. -/
def jsIsWhitespaceChar (c : Char) : Bool :=
  c = ' ' || c = '\t' || c = '\n' || c = '\r'

/-- JavaScript `String.prototype.trim()`: strip leading and trailing
whitespace. -/
def jsTrim (s : String) : String :=
  String.mk (((s.toList.dropWhile jsIsWhitespaceChar).reverse.dropWhile
    jsIsWhitespaceChar).reverse)

/-- The text-extraction pipeline both paths apply to a parts array:
`parts.filter(text-part).map(p => p.text).join(" ").trim()`
(`src/server.ts` lines 191-195 and 434-438). -/
def joinedText (ps : List Part) : String :=
  jsTrim (joinSep " " ((ps.filter isTextPart).map partText))

/-- The `RequestContext` the JSON-RPC handler builds for the executor. -/
structure RequestContext where
  taskId : String
  contextId : String
  userMessage : InboundMessage
deriving DecidableEq

/-- Extraction of the JSON-RPC response text from the engine result
(`src/server.ts` lines 221-238). A non-string `content` that is truthy is
used as-is (the `||` only falls back on falsy values); the result can hence
be a non-string `Js` value. -/
def extractResponseJsonRpc (result : Js) : Js :=
  match result with
  | .str s => .str s
  | .obj fs =>
      match jsGet (.obj fs) "messages" with
      | some (.arr ms) =>
          match ms.getLast? with
          | some (.str s) => .str s
          | some lastMessage =>
              match jsGet lastMessage "content" with
              | some c => if jsTruthy c then c else .str (jsStringify (.obj fs))
              | none => .str (jsStringify (.obj fs))
          | none => .str (jsStringify (.obj fs))
      | _ => .str (jsStringify (.obj fs))
  | .arr xs => .str (jsStringify (.arr xs))
  | other => .str (jsToStr other)

/-- Extraction of the REST response text from the engine result
(`src/server.ts` lines 466-469): a string verbatim, anything else the
serialization of the whole result — no `messages` inspection. -/
def extractResponseRest (result : Js) : Js :=
  match result with
  | .str s => .str s
  | other => .str (jsStringify other)

/-- The value stored in the published part's `text` field. The source stores
`responseText` raw; when it is not a string the bus's `join` later coerces
it with `String(·)`, so the coercion is applied at storage, observationally
equally. -/
def responseTextString (v : Js) : String :=
  match v with
  | .str s => s
  | other => jsToStr other

/-- Trace of one `agentExecutor.execute` call: the events published on its
bus, how many times `finished()` was called, and the rethrown error message
if the engine threw. -/
structure ExecTrace where
  events : List Event
  finished : Nat
  thrown : Option String
deriving DecidableEq

/-- Translation of `agentExecutor.execute` (`src/server.ts` lines 183-272):
extract the text content, invoke the engine with the `thread_id`
(`contextId || "default"`), publish exactly one agent message — the
extracted response on success, `"Error: " ++ message` on failure — call
`finished()`, and rethrow the error on the failure path. -/
def runExecute (ctx : RequestContext) (engine : Engine) (now : Nat) : ExecTrace :=
  let textContent := ctx.userMessage.parts.map joinedText
  let content := textContent.getD ""
  let threadId := if ctx.contextId = "" then "default" else ctx.contextId
  match engine content threadId with
  | .ok result =>
      { events :=
          [{ kind := some "message", role := some "agent"
             messageId := some ("msg-" ++ toString now)
             parts := some [{ kind := some "text",
                              text := some (responseTextString (extractResponseJsonRpc result)) }] }]
        finished := 1
        thrown := none }
  | .error emsg =>
      { events :=
          [{ kind := some "message", role := some "agent"
             messageId := some ("error-" ++ toString now)
             parts := some [{ kind := some "text", text := some ("Error: " ++ emsg) }] }]
        finished := 1
        thrown := some emsg }

/-! ## The JSON-RPC `POST /` handler -/

/-- A JSON-RPC error object `\x7bcode, message\x7d`. -/
structure RpcError where
  code : Int
  message : String
deriving DecidableEq

/-- The parsed `params` of a JSON-RPC request. A `message` that is absent or
`null` is modelled as `none` (both are falsy under the handler's `!message`
check). A non-string `contextId` is outside the wire format and not
modelled. -/
structure RpcParams where
  message : Option InboundMessage := none
  contextId : Option String := none
deriving DecidableEq

/-- A JSON-RPC request as destructured by the handler:
`const \x7b id, method, params \x7d = req.body`. A non-string `method` is
outside the wire format; an absent field is `none`. -/
structure JsonRpcRequest where
  id : Option Js := none
  method : Option String := none
  params : Option RpcParams := none

/-- The JSON-RPC response envelope the handler passes to `res.json`: the
echoed `id`, and exactly one of `result` / `error`. -/
structure JsonRpcResponse where
  id : Option Js
  result : Option Js := none
  error : Option RpcError := none

/-- A JSON-RPC response together with the HTTP status it is sent with. -/
structure JsonRpcHttpResponse where
  status : Nat
  body : JsonRpcResponse

/-- Translation of the JSON-RPC `POST /` handler (`src/server.ts` lines
315-392). `card` is the serialized agent card the handler closes over,
`engine` the workflow engine, `now` the `Date.now()` reading, `rand36` the
`Math.random().toString(36)` string. Every branch answers through
`res.json`, whose default HTTP status is 200. -/
def handleJsonRpc (card : Js) (engine : Engine) (now : Nat) (rand36 : String)
    (req : JsonRpcRequest) : JsonRpcHttpResponse :=
  if req.method == some "message/send" then
    let taskId := mkTaskId now rand36
    match req.params.bind (·.message) with
    | none =>
        ⟨200, { id := req.id
                error := some ⟨-32602, "Invalid params: message is required"⟩ }⟩
    | some message =>
        let contextId := jsOr (req.params.bind (·.contextId)) taskId
        let trace := runExecute ⟨taskId, contextId, message⟩ engine now
        match trace.thrown with
        | some emsg =>
            ⟨200, { id := req.id
                    error := some ⟨-32603, if emsg = "" then "Internal error" else emsg⟩ }⟩
        | none =>
            ⟨200, { id := req.id
                    result := some (.obj
                      [("taskId", .str taskId),
                       ("result", .str (busResponse trace.events)),
                       ("thread_id", .str contextId)]) }⟩
  else if req.method == some "agent/getAuthenticatedExtendedCard" then
    ⟨200, { id := req.id, result := some card }⟩
  else
    ⟨200, { id := req.id
            error := some ⟨-32601,
              "Method not found: " ++ req.method.getD "undefined"⟩ }⟩

/-! ## Task store -/

/-- The in-memory task store (`InMemoryTaskStore`), modelled as an
association list from task id to stored task value. -/
def TaskStore : Type := List (String × Js)

/-- Task lookup in the store. -/
def taskLookup (store : TaskStore) (taskId : String) : Option Js :=
  (store.find? (fun kv => kv.1 = taskId)).map (·.2)

/-- One JSON-RPC request served against the server's state: the `POST /`
handler (`src/server.ts` lines 315-392) contains no reference to
`taskStore`, so the store component passes through untouched. -/
def jsonRpcServerStep (card : Js) (engine : Engine) (now : Nat)
    (rand36 : String) (req : JsonRpcRequest) (store : TaskStore) :
    JsonRpcHttpResponse × TaskStore :=
  (handleJsonRpc card engine now rand36 req, store)

/-! ## The manual REST `POST /message/send` handler -/

/-- The REST request body `\x7bmessage, sessionId\x7d`; a falsy `message`
is modelled as `none`. -/
structure RestBody where
  message : Option InboundMessage := none
  sessionId : Option String := none
deriving DecidableEq

/-- An HTTP response: status code and JSON body. -/
structure HttpResponse where
  status : Nat
  body : Js

/-- Translation of the manual REST `POST /message/send` handler
(`src/server.ts` lines 423-480). -/
def handleMessageSend (engine : Engine) (now : Nat) (body : RestBody) :
    HttpResponse :=
  match body.message with
  | none => ⟨400, .obj [("error", .str "Invalid message format")]⟩
  | some message =>
      match message.parts with
      | none => ⟨400, .obj [("error", .str "Invalid message format")]⟩
      | some ps =>
          if ps.length = 0 then
            ⟨400, .obj [("error", .str "Invalid message format")]⟩
          else
            let textContent := joinedText ps
            if textContent = "" then
              ⟨400, .obj [("error", .str "No text content found in message")]⟩
            else
              let threadId := jsOr body.sessionId "default"
              match engine textContent threadId with
              | .ok result =>
                  ⟨200, .obj
                    [("messageId", .str ("msg-" ++ toString now)),
                     ("parts", .arr
                       [.obj [("kind", .str "text"),
                              ("text", extractResponseRest result)]])]⟩
              | .error emsg =>
                  ⟨500, .obj
                    [("error", .str "Internal server error"),
                     ("message", .str emsg)]⟩

/-! ## Concrete fixtures used by counterexamples and witnesses -/

/-- A configuration embedding an explicit `agentCard` that provides every
field, with an explicit `stateTransitionHistory = false`. -/
def cfgExplicitAll : WorkflowConfig :=
  { config := some
      { a2aEndpoint := some
          { port := some 3001
            agentCard := some
              { name := "A", description := "B"
                protocolVersion := some "0.9.9"
                version := some "2.0.0"
                url := some "http://example.test/"
                defaultInputModes := some ["a/b"]
                defaultOutputModes := some ["c/d"]
                capabilities := some
                  { streaming := some true
                    pushNotifications := some false
                    stateTransitionHistory := some false }
                skills := some ["s1"] } } } }

/-- An engine stub that returns the string `"world"`. -/
def engineWorld : Engine := fun _ _ => .ok (.str "world")

/-- An engine stub that throws an error whose message is empty. -/
def engineFailEmpty : Engine := fun _ _ => .error ""

/-- A configuration whose explicit `agentCard` provides only the required
`name` and `description`, omitting every optional field. -/
def cfgCardMinimal : WorkflowConfig :=
  { config := some { a2aEndpoint := some { port := some 3001, agentCard := some { name := "A", description := "B" } } } }

/-! ## C1 -/

/-- C1 (code bug): at a configuration whose explicit `agentCard` provides
every field, `buildAgentCardFromConfig` preserves every provided field
except `capabilities.stateTransitionHistory`: the explicit `false` comes out
as `true`, because the source uses `configCard.capabilities?.stateTransitionHistory || true`
and `false || true` is `true` — the configured value can never reach the
card. The claim (and spec §4.1: an explicit descriptor wins field-by-field)
says the explicit `false` is preserved; reading a field only to `||` it with
`true` is a dead read, so the code, not the claim, is the slip. -/
theorem buildAgentCard_explicit_false_lost :
    buildAgentCardFromConfig cfgExplicitAll 3001 =
      { name := "A", description := "B", protocolVersion := "0.9.9",
        version := "2.0.0", url := "http://example.test/",
        defaultInputModes := ["a/b"], defaultOutputModes := ["c/d"],
        capabilities := { streaming := true, pushNotifications := false,
                          stateTransitionHistory := true },
        skills := ["s1"] } ∧
    buildAgentCardFromConfig cfgCardMinimal 3001 =
      { name := "A", description := "B", protocolVersion := "0.3.0",
        version := "1.0.0", url := "http://localhost:3001/",
        defaultInputModes := ["text/plain"], defaultOutputModes := ["text/plain"],
        capabilities := { streaming := false, pushNotifications := false,
                          stateTransitionHistory := true },
        skills := [] } := by
  exact ⟨by decide, by decide⟩

/-! ## C2 -/

/-- Every `publish` call appends exactly that event's contribution to the
accumulated response text. -/
theorem busStep_append (acc : String) (e : Event) :
    busStep acc e = acc ++ eventContribution e := by
  unfold busStep eventContribution
  by_cases h : (e.kind == some "message" && e.role == some "agent") = true
  · cases hp : e.parts with
    | none => simp [h, hp, joinSep]
    | some ps =>
      by_cases hl : (ps.filter isTextPart).length > 0
      · simp [h, hp, hl]
      · have hnil : ps.filter isTextPart = [] := by
          cases hfe : ps.filter isTextPart with
          | nil => rfl
          | cons q qs => rw [hfe] at hl; simp at hl
        simp [h, hp, hl, hnil, joinSep]
  · simp [h]

/-- Folding `busStep` from any accumulator appends the concatenation of the
per-event contributions. -/
theorem foldl_busStep (events : List Event) :
    ∀ acc : String, events.foldl busStep acc
      = acc ++ concatAll (events.map eventContribution) := by
  induction events with
  | nil => intro acc; simp [concatAll]
  | cons e es ih =>
    intro acc
    simp only [List.foldl_cons, List.map_cons, concatAll]
    rw [busStep_append, ih, String.append_assoc]

/-- C2 counterexample: after two `publish` calls, each an agent message with
one text part (`"a"`, then `"b"`), `getResponse()` is `"ab"`, not the
space-joined `"a b"` the claim predicts: `responseText += join(" ")` inserts
a space only between parts of one event, never between events. -/
theorem busResponse_no_space_between_events :
    busResponse
      [{ kind := some "message", role := some "agent",
         parts := some [{ kind := some "text", text := some "a" }] },
       { kind := some "message", role := some "agent",
         parts := some [{ kind := some "text", text := some "b" }] }] = "ab" ∧
    ("ab" : String) ≠ "a b" := by
  exact ⟨by decide, by decide⟩

/-- C2 (amended): `getResponse()` is the empty string after zero `publish`
calls, and in general the contributions of the published events concatenated
in publish order with no separator between events, where an event with kind
`"message"` and role `"agent"` contributes its text parts joined by a single
space and every other event contributes nothing. -/
theorem busResponse_concat_contributions (events : List Event) :
    busResponse events = concatAll (events.map eventContribution) := by
  unfold busResponse
  rw [foldl_busStep]
  simp

/-! ## C3 -/

/-- An engine result of the `messages` shape whose last entry is a string. -/
def msgsHi : Js := .obj [("messages", .arr [.str "hi"])]

/-- C3 counterexample: the two paths do not share one extraction rule. At
the result `\x7bmessages: ["hi"]\x7d` the claimed rule yields the last
entry `"hi"`; the JSON-RPC path does, but the REST path returns the
serialization of the whole result (`typeof result === "string" ? result :
JSON.stringify(result, null, 2)` — it never inspects `messages`). -/
theorem responseExtraction_paths_differ :
    extractResponseJsonRpc msgsHi = .str "hi" ∧
    extractResponseRest msgsHi = .str "\x7b\"messages\":[\"hi\"]\x7d" ∧
    ("\x7b\"messages\":[\"hi\"]\x7d" : String) ≠ "hi" := by
  refine ⟨rfl, rfl, by decide⟩

/-- C3 (amended): the two paths use two different rules. Both use a string
result verbatim. The JSON-RPC path alone inspects a `messages` array: the
last entry is used when it is a string; otherwise its `content` field is
used as-is whenever truthy (even when structured — no serialization
fallback for truthy structured content); when that field is missing or
falsy the whole result is serialized; an object whose `messages` key is
absent, holds a non-array, or holds an empty array is serialized, as is a
top-level array. The REST path serializes every non-string result whole,
never extracting from `messages`. -/
theorem responseExtraction_two_rules :
    (∀ s : String,
      extractResponseJsonRpc (.str s) = .str s ∧ extractResponseRest (.str s) = .str s) ∧
    (∀ (fs : List (String × Js)) (ms : List Js) (x : String),
      jsGet (.obj fs) "messages" = some (.arr ms) →
      ms.getLast? = some (.str x) →
      extractResponseJsonRpc (.obj fs) = .str x ∧
      extractResponseRest (.obj fs) = .str (jsStringify (.obj fs))) ∧
    (∀ (fs : List (String × Js)) (ms : List Js) (lastMessage c : Js),
      jsGet (.obj fs) "messages" = some (.arr ms) →
      ms.getLast? = some lastMessage →
      (∀ t, lastMessage ≠ .str t) →
      jsGet lastMessage "content" = some c →
      jsTruthy c = true →
      extractResponseJsonRpc (.obj fs) = c) ∧
    (∀ fs : List (String × Js),
      jsGet (.obj fs) "messages" = none →
      extractResponseJsonRpc (.obj fs) = .str (jsStringify (.obj fs))) ∧
    (∀ (fs : List (String × Js)) (ms : List Js) (lastMessage : Js),
      jsGet (.obj fs) "messages" = some (.arr ms) →
      ms.getLast? = some lastMessage →
      (∀ t, lastMessage ≠ .str t) →
      (jsGet lastMessage "content" = none ∨
        ∃ c, jsGet lastMessage "content" = some c ∧ jsTruthy c = false) →
      extractResponseJsonRpc (.obj fs) = .str (jsStringify (.obj fs))) ∧
    (∀ (fs : List (String × Js)) (v : Js),
      jsGet (.obj fs) "messages" = some v →
      (∀ xs, v ≠ .arr xs) →
      extractResponseJsonRpc (.obj fs) = .str (jsStringify (.obj fs))) ∧
    (∀ fs : List (String × Js),
      jsGet (.obj fs) "messages" = some (.arr []) →
      extractResponseJsonRpc (.obj fs) = .str (jsStringify (.obj fs))) ∧
    (∀ xs : List Js,
      extractResponseJsonRpc (.arr xs) = .str (jsStringify (.arr xs))) ∧
    (∀ r : Js, (∀ s, r ≠ .str s) →
      extractResponseRest r = .str (jsStringify r)) := by
  refine ⟨fun s => ⟨rfl, rfl⟩, ?_, ?_, ?_, ?_, ?_, ?_, fun xs => rfl, ?_⟩
  · intro fs ms x h1 h2
    exact ⟨by simp [extractResponseJsonRpc, h1, h2], rfl⟩
  · intro fs ms lastMessage c h1 h2 h3 h4 h5
    cases lastMessage with
    | str t => exact absurd rfl (h3 t)
    | num n => simp [jsGet] at h4
    | bool b => simp [jsGet] at h4
    | null => simp [jsGet] at h4
    | arr xs => simp [jsGet] at h4
    | obj gs => simp [extractResponseJsonRpc, h1, h2, h4, h5]
  · intro fs h1
    simp [extractResponseJsonRpc, h1]
  · intro fs ms lastMessage h1 h2 h3 h4
    cases lastMessage with
    | str t => exact absurd rfl (h3 t)
    | num n =>
      rcases h4 with h4 | ⟨c, hc, _⟩
      · simp [extractResponseJsonRpc, h1, h2, h4]
      · simp [jsGet] at hc
    | bool b =>
      rcases h4 with h4 | ⟨c, hc, _⟩
      · simp [extractResponseJsonRpc, h1, h2, h4]
      · simp [jsGet] at hc
    | null =>
      rcases h4 with h4 | ⟨c, hc, _⟩
      · simp [extractResponseJsonRpc, h1, h2, h4]
      · simp [jsGet] at hc
    | arr ys =>
      rcases h4 with h4 | ⟨c, hc, _⟩
      · simp [extractResponseJsonRpc, h1, h2, h4]
      · simp [jsGet] at hc
    | obj gs =>
      rcases h4 with h4 | ⟨c, hc, hcf⟩
      · simp [extractResponseJsonRpc, h1, h2, h4]
      · simp [extractResponseJsonRpc, h1, h2, hc, hcf]
  · intro fs v h1 h2
    cases v with
    | arr xs => exact absurd rfl (h2 xs)
    | str t => simp [extractResponseJsonRpc, h1]
    | num n => simp [extractResponseJsonRpc, h1]
    | bool b => simp [extractResponseJsonRpc, h1]
    | null => simp [extractResponseJsonRpc, h1]
    | obj gs => simp [extractResponseJsonRpc, h1]
  · intro fs h1
    simp [extractResponseJsonRpc, h1]
  · intro r hr
    cases r with
    | str s => exact absurd rfl (hr s)
    | num n => rfl
    | bool b => rfl
    | null => rfl
    | arr xs => rfl
    | obj gs => rfl

/-- Witness for `responseExtraction_two_rules`: at the result
`\x7bmessages: ["ok"]\x7d` the JSON-RPC path yields `"ok"` and the REST
path yields the whole-result serialization. -/
theorem responseExtraction_two_rules_witness :
    extractResponseJsonRpc (.obj [("messages", .arr [.str "ok"])]) = .str "ok" ∧
    extractResponseRest (.obj [("messages", .arr [.str "ok"])])
      = .str (jsStringify (.obj [("messages", .arr [.str "ok"])])) :=
  responseExtraction_two_rules.2.1 [("messages", .arr [.str "ok"])] [.str "ok"] "ok" rfl rfl

/-! ## C4 -/

/-- A message with one text part `"hello"`. -/
def msgHello : InboundMessage :=
  { parts := some [{ kind := some "text", text := some "hello" }] }

/-- A `message/send` request that supplies the empty string as `contextId`. -/
def reqCtxEmpty : JsonRpcRequest :=
  { id := some (.num 1), method := some "message/send",
    params := some { message := some msgHello, contextId := some "" } }

/-- C4 counterexample: the caller supplies `contextId = ""`, so the claim
says `result.thread_id` is that supplied `contextId`; but
`params?.contextId || taskId` treats the empty string as falsy, and the
response carries the generated task id `"task-5-abcdefghi"` instead. -/
theorem threadId_not_supplied_contextId :
    ((handleJsonRpc .null engineWorld 5 "0.abcdefghij" reqCtxEmpty).body.result.bind
        (jsGet · "thread_id"))
      = some (.str "task-5-abcdefghi") ∧
    ("task-5-abcdefghi" : String) ≠ "" := by
  refine ⟨rfl, by decide⟩

/-- C4 (amended): for a `message/send` request whose `params.message` is
present with non-empty text and whose engine invocation succeeds, the
response's `id` equals the request's `id`, and `result.thread_id` equals
the supplied `contextId` when it is non-empty, and the generated task id
when `contextId` is omitted or empty (the `||` default). -/
theorem jsonRpc_send_id_and_thread :
    ∀ (card : Js) (engine : Engine) (now : Nat) (rand36 : String)
      (req : JsonRpcRequest) (m : InboundMessage),
      req.method = some "message/send" →
      req.params.bind (·.message) = some m →
      (m.parts.map joinedText).getD "" ≠ "" →
      (∀ c t, ∃ r, engine c t = Except.ok r) →
      (handleJsonRpc card engine now rand36 req).body.id = req.id ∧
      ((handleJsonRpc card engine now rand36 req).body.result.bind (jsGet · "thread_id"))
        = some (.str (jsOr (req.params.bind (·.contextId)) (mkTaskId now rand36))) := by
  intro card engine now rand36 req m hmeth hmsg htext hok
  obtain ⟨r, hr⟩ := hok ((m.parts.map joinedText).getD "")
    (if jsOr (req.params.bind (·.contextId)) (mkTaskId now rand36) = "" then "default"
     else jsOr (req.params.bind (·.contextId)) (mkTaskId now rand36))
  constructor
  · simp [handleJsonRpc, hmeth, hmsg, runExecute, hr]
  · simp [handleJsonRpc, hmeth, hmsg, runExecute, hr, jsGet]

/-- A `message/send` request that supplies `contextId = "ctx-1"`. -/
def reqCtx1 : JsonRpcRequest :=
  { id := some (.num 2), method := some "message/send",
    params := some { message := some msgHello, contextId := some "ctx-1" } }

/-- Witness for `jsonRpc_send_id_and_thread` at a concrete request with
`contextId = "ctx-1"` and an engine returning `"world"`. -/
theorem jsonRpc_send_id_and_thread_witness :
    (handleJsonRpc .null engineWorld 5 "0.abcdefghij" reqCtx1).body.id = reqCtx1.id ∧
    ((handleJsonRpc .null engineWorld 5 "0.abcdefghij" reqCtx1).body.result.bind
        (jsGet · "thread_id"))
      = some (.str (jsOr (reqCtx1.params.bind (·.contextId)) (mkTaskId 5 "0.abcdefghij"))) :=
  jsonRpc_send_id_and_thread .null engineWorld 5 "0.abcdefghij" reqCtx1 msgHello rfl rfl
    (by decide) (fun _ _ => ⟨.str "world", rfl⟩)

/-! ## C5 -/

/-- A `message/send` request with a valid message and no `contextId`. -/
def reqSendNoCtx : JsonRpcRequest :=
  { id := some (.num 7), method := some "message/send",
    params := some { message := some msgHello } }

/-- C5 counterexample: when the engine failure's message is the empty
string, the response does not carry the failure's message: the handler's
`error.message || "Internal error"` treats `""` as falsy and substitutes
`"Internal error"`. -/
theorem rpcError_empty_message_replaced :
    (handleJsonRpc .null engineFailEmpty 5 "0.abcdefghij" reqSendNoCtx).body.error
      = some { code := -32603, message := "Internal error" } ∧
    ("Internal error" : String) ≠ "" := by
  exact ⟨by decide, by decide⟩

/-- C5 (amended): on `POST /`, an unknown (or missing) method yields error
code -32601 with no result; `message/send` with a missing/null
`params.message` yields -32602; an engine failure yields -32603 carrying the
failure's message when it is non-empty and `"Internal error"` when it is
empty; and every response echoes the caller's `id` unchanged. -/
theorem jsonRpc_error_mapping :
    ∀ (card : Js) (engine : Engine) (now : Nat) (rand36 : String)
      (req : JsonRpcRequest),
      ((handleJsonRpc card engine now rand36 req).body.id = req.id) ∧
      (∀ mname : String, req.method = some mname → mname ≠ "message/send" →
        mname ≠ "agent/getAuthenticatedExtendedCard" →
        (handleJsonRpc card engine now rand36 req).body.error
          = some ⟨-32601, "Method not found: " ++ mname⟩ ∧
        (handleJsonRpc card engine now rand36 req).body.result = none) ∧
      (req.method = none →
        (handleJsonRpc card engine now rand36 req).body.error
          = some ⟨-32601, "Method not found: undefined"⟩ ∧
        (handleJsonRpc card engine now rand36 req).body.result = none) ∧
      (req.method = some "message/send" → req.params.bind (·.message) = none →
        (handleJsonRpc card engine now rand36 req).body.error
          = some ⟨-32602, "Invalid params: message is required"⟩ ∧
        (handleJsonRpc card engine now rand36 req).body.result = none) ∧
      (∀ (m : InboundMessage) (emsg : String),
        req.method = some "message/send" →
        req.params.bind (·.message) = some m →
        (∀ c t, engine c t = Except.error emsg) →
        (handleJsonRpc card engine now rand36 req).body.error
          = some ⟨-32603, if emsg = "" then "Internal error" else emsg⟩ ∧
        (handleJsonRpc card engine now rand36 req).body.result = none) := by
  intro card engine now rand36 req
  refine ⟨?_, ?_, ?_, ?_, ?_⟩
  · simp only [handleJsonRpc]
    repeat' split
    all_goals rfl
  · intro mname h1 h2 h3
    constructor <;> simp [handleJsonRpc, h1, h2, h3]
  · intro h1
    constructor <;> simp [handleJsonRpc, h1]
  · intro h1 h2
    constructor <;> simp [handleJsonRpc, h1, h2]
  · intro m emsg h1 h2 heng
    constructor <;> simp [handleJsonRpc, h1, h2, runExecute, heng]

/-- A request with an unknown method `"foo"`. -/
def reqUnknown : JsonRpcRequest :=
  { id := some (.str "w1"), method := some "foo" }

/-- Witness for `jsonRpc_error_mapping` at the unknown method `"foo"`. -/
theorem jsonRpc_error_mapping_witness :
    (handleJsonRpc .null engineWorld 5 "0.abcdefghij" reqUnknown).body.error
      = some ⟨-32601, "Method not found: foo"⟩ ∧
    (handleJsonRpc .null engineWorld 5 "0.abcdefghij" reqUnknown).body.result = none :=
  (jsonRpc_error_mapping .null engineWorld 5 "0.abcdefghij" reqUnknown).2.1 "foo" rfl
    (by decide) (by decide)

/-! ## C6 -/

/-- C6: the REST `POST /message/send` contract. A missing/falsy `message`,
missing `parts`, or empty `parts` array yields HTTP 400
`\x7berror: "Invalid message format"\x7d`; text parts that join-and-trim
to the empty string yield HTTP 400
`\x7berror: "No text content found in message"\x7d`; otherwise the engine
is invoked with the extracted text and `sessionId || "default"`, and the
response is HTTP 200 `\x7bmessageId, parts: [\x7bkind: "text", text\x7d]\x7d`
on success and HTTP 500 `\x7berror, message\x7d` on failure. -/
theorem restMessageSend_contract :
    ∀ (engine : Engine) (now : Nat) (body : RestBody),
      ((body.message = none ∨
          ∃ m, body.message = some m ∧ (m.parts = none ∨ m.parts = some [])) →
        handleMessageSend engine now body
          = ⟨400, .obj [("error", .str "Invalid message format")]⟩) ∧
      (∀ (m : InboundMessage) (ps : List Part),
        body.message = some m → m.parts = some ps → ps ≠ [] →
        joinedText ps = "" →
        handleMessageSend engine now body
          = ⟨400, .obj [("error", .str "No text content found in message")]⟩) ∧
      (∀ (m : InboundMessage) (ps : List Part),
        body.message = some m → m.parts = some ps → ps ≠ [] →
        joinedText ps ≠ "" →
        (∀ r : Js, engine (joinedText ps) (jsOr body.sessionId "default") = Except.ok r →
          handleMessageSend engine now body
            = ⟨200, .obj [("messageId", .str ("msg-" ++ toString now)),
                          ("parts", .arr [.obj [("kind", .str "text"),
                                                ("text", extractResponseRest r)]])]⟩) ∧
        (∀ emsg : String,
          engine (joinedText ps) (jsOr body.sessionId "default") = Except.error emsg →
          handleMessageSend engine now body
            = ⟨500, .obj [("error", .str "Internal server error"),
                          ("message", .str emsg)]⟩)) := by
  intro engine now body
  refine ⟨?_, ?_, ?_⟩
  · rintro (h | ⟨m, hm, hp | hp⟩)
    · simp [handleMessageSend, h]
    · simp [handleMessageSend, hm, hp]
    · simp [handleMessageSend, hm, hp]
  · intro m ps hm hp hne htext
    have hlen : ¬(ps.length = 0) := fun h => hne (List.length_eq_zero.mp h)
    simp [handleMessageSend, hm, hp, hlen, htext]
  · intro m ps hm hp hne htext
    have hlen : ¬(ps.length = 0) := fun h => hne (List.length_eq_zero.mp h)
    constructor
    · intro r hr
      simp [handleMessageSend, hm, hp, hlen, htext, hr]
    · intro emsg he
      simp [handleMessageSend, hm, hp, hlen, htext, he]

/-- A REST body whose message has an empty `parts` array. -/
def bodyEmptyParts : RestBody := { message := some { parts := some [] } }

/-- Witness for `restMessageSend_contract`: an empty `parts` array yields
HTTP 400 with `error: "Invalid message format"`. -/
theorem restMessageSend_contract_witness :
    handleMessageSend engineWorld 5 bodyEmptyParts
      = ⟨400, .obj [("error", .str "Invalid message format")]⟩ :=
  (restMessageSend_contract engineWorld 5 bodyEmptyParts).1
    (Or.inr ⟨{ parts := some [] }, rfl, Or.inr rfl⟩)

/-! ## C7 -/

/-- A producible random string's base-36 fraction consists of base-36
digits, so the characters after the first two positions all are. -/
theorem randChars36_drop2_all (cs : List Char) (h : randChars36OK cs = true) :
    ((cs.drop 2).all isBase36Digit) = true := by
  rcases cs with _ | ⟨c0, _ | ⟨c1, rest⟩⟩
  · simp [randChars36OK] at h
  · by_cases hc0 : c0 = '0'
    · subst hc0; rfl
    · simp [randChars36OK, hc0] at h
  · by_cases hc0 : c0 = '0'
    · subst hc0
      by_cases hc1 : c1 = '.'
      · subst hc1
        simp [randChars36OK] at h
        simpa using h.2
      · simp [randChars36OK, hc1] at h
    · simp [randChars36OK, hc0] at h

/-- C7 counterexample: `Math.random()` can return exactly `0.5`, whose
base-36 rendering is `"0.i"` (`0.5 = 18/36` and `i` is digit 18); then
`substring(2, 11)` is `"i"` and the generated id is `"task-1234-i"`, whose
random suffix has length 1, not the 9 the claim requires for every value of
the random source. -/
theorem taskId_suffix_not_nine :
    randStr36OK "0.i" = true ∧
    mkTaskId 1234 "0.i" = "task-1234-i" ∧
    (jsSubstring "0.i" 2 11).length ≠ 9 := by
  exact ⟨by decide, by decide, by decide⟩

/-- C7 (amended): every generated task id has the shape
`task-{epochMillis}-{suffix}` where the suffix is
`Math.random().toString(36).substring(2, 11)`: at most 9 base-36
(lowercase-alphanumeric) characters, and exactly 9 precisely when the
random string has at least 11 characters (at least 9 fractional digits). -/
theorem taskId_format :
    ∀ (now : Nat) (s : String), randStr36OK s = true →
      mkTaskId now s = "task-" ++ toString now ++ "-" ++ jsSubstring s 2 11 ∧
      (jsSubstring s 2 11).length ≤ 9 ∧
      ((jsSubstring s 2 11).toList.all isBase36Digit) = true ∧
      (11 ≤ s.length → (jsSubstring s 2 11).length = 9) := by
  intro now s h
  have hlen : (jsSubstring s 2 11).length = min 9 (s.toList.length - 2) := by
    show (String.mk ((s.toList.drop 2).take (11 - 2))).length = _
    rw [String.length_mk, List.length_take, List.length_drop]
  have hslen : s.length = s.toList.length := rfl
  refine ⟨rfl, ?_, ?_, ?_⟩
  · rw [hlen]; omega
  · show (((s.toList.drop 2).take (11 - 2)).all isBase36Digit) = true
    have hall := randChars36_drop2_all s.toList h
    rw [List.all_eq_true] at hall ⊢
    intro x hx
    exact hall x (List.take_subset _ _ hx)
  · intro h11
    rw [hlen]
    omega

/-- Witness for `taskId_format` at the random string `"0.abcdefghij"`
(10 fractional digits, so the suffix has exactly 9 characters). -/
theorem taskId_format_witness :
    mkTaskId 7 "0.abcdefghij"
      = "task-" ++ toString 7 ++ "-" ++ jsSubstring "0.abcdefghij" 2 11 ∧
    (jsSubstring "0.abcdefghij" 2 11).length = 9 :=
  ⟨(taskId_format 7 "0.abcdefghij" (by decide)).1,
   (taskId_format 7 "0.abcdefghij" (by decide)).2.2.2 (by decide)⟩

/-! ## C8 -/

/-- C8: every JSON-RPC response on `POST /` — success, -32601, -32602 and
-32603 alike — is sent through `res.json(...)` with no status override, so
its HTTP status is 200. -/
theorem jsonRpc_http_status_200 :
    ∀ (card : Js) (engine : Engine) (now : Nat) (rand36 : String)
      (req : JsonRpcRequest),
      (handleJsonRpc card engine now rand36 req).status = 200 := by
  intro card engine now rand36 req
  simp only [handleJsonRpc]
  repeat' split
  all_goals rfl

/-! ## C9 -/

/-- C9: serving a JSON-RPC request never touches the `InMemoryTaskStore`:
the store is returned unchanged, and from the server's initial empty store
any task lookup after the request — in particular for the generated task id
the response returns — finds no entry. -/
theorem jsonRpc_taskStore_frame :
    ∀ (card : Js) (engine : Engine) (now : Nat) (rand36 : String)
      (req : JsonRpcRequest) (store : TaskStore),
      (jsonRpcServerStep card engine now rand36 req store).2 = store ∧
      (store = [] → ∀ tid : String,
        taskLookup (jsonRpcServerStep card engine now rand36 req store).2 tid
          = none) := by
  intro card engine now rand36 req store
  refine ⟨rfl, ?_⟩
  intro h tid
  subst h
  rfl

/-- Witness for `jsonRpc_taskStore_frame`: after a `message/send` request
against the empty store, looking up the very task id generated for that
request finds nothing. -/
theorem jsonRpc_taskStore_frame_witness :
    taskLookup
      (jsonRpcServerStep .null engineWorld 5 "0.abcdefghij" reqCtx1 []).2
      (mkTaskId 5 "0.abcdefghij") = none :=
  (jsonRpc_taskStore_frame .null engineWorld 5 "0.abcdefghij" reqCtx1 []).2 rfl
    (mkTaskId 5 "0.abcdefghij")

/-! ## C10 -/

/-- C10: when the engine invocation throws, `agentExecutor.execute`
publishes exactly one agent message whose single text part is
`"Error: " ++ message`, calls `finished()` exactly once, rethrows the
error, and the bus's accumulated response text is `"Error: " ++ message`,
which contains the error message. -/
theorem execute_error_path :
    ∀ (ctx : RequestContext) (engine : Engine) (now : Nat) (emsg : String),
      (∀ c t, engine c t = Except.error emsg) →
      runExecute ctx engine now =
        { events := [{ kind := some "message", role := some "agent",
                       messageId := some ("error-" ++ toString now),
                       parts := some [{ kind := some "text",
                                        text := some ("Error: " ++ emsg) }] }],
          finished := 1, thrown := some emsg } ∧
      busResponse (runExecute ctx engine now).events = "Error: " ++ emsg ∧
      ∃ a b : String,
        busResponse (runExecute ctx engine now).events = a ++ (emsg ++ b) := by
  intro ctx engine now emsg h
  have htr : runExecute ctx engine now =
      { events := [{ kind := some "message", role := some "agent",
                     messageId := some ("error-" ++ toString now),
                     parts := some [{ kind := some "text",
                                      text := some ("Error: " ++ emsg) }] }],
        finished := 1, thrown := some emsg } := by
    simp [runExecute, h]
  refine ⟨htr, ?_, "Error: ", "", ?_⟩
  · rw [htr]
    simp [busResponse, busStep, isTextPart, partText, joinSep]
  · rw [htr]
    simp [busResponse, busStep, isTextPart, partText, joinSep]

/-- A request context and an engine that throws `"boom"`. -/
def ctxBoom : RequestContext :=
  { taskId := "task-1-x", contextId := "ctx", userMessage := msgHello }

/-- An engine stub that always throws with message `"boom"`. -/
def engineBoom : Engine := fun _ _ => .error "boom"

/-- Witness for `execute_error_path` with the error message `"boom"`. -/
theorem execute_error_path_witness :
    busResponse (runExecute ctxBoom engineBoom 5).events = "Error: " ++ "boom" :=
  (execute_error_path ctxBoom engineBoom 5 "boom" (fun _ _ => rfl)).2.1

end A2AServer
